import Mathlib

/-
Verification of the MCMC proposal-function module
(`simplot/fit/mcmc/old_proposalfunc.py`) against its specification.

The Python module is shallowly embedded below.  Real values are modelled by
rationals; Python floats that may be NaN or infinite are modelled by `PyFloat`.
Exceptions are modelled by `Except PyErr`.  The external C sampling routines
(`ROOT.mcmc.gaus_generate`, `numpy.random.multivariate_normal`, `numpy.cov`)
are modelled as oracle parameters: they are outside the repository and the
claims under scrutiny only concern how their outputs are routed.
-/

/-- A Python float value: finite rational, NaN, or a signed infinity. -/
inductive PyFloat where
  | nan : PyFloat
  | inf : PyFloat
  | ninf : PyFloat
  | val : ℚ → PyFloat
deriving DecidableEq

/-- `numpy.isfinite` on a `PyFloat`. -/
def PyFloat.isfinite : PyFloat → Bool
  | .val _ => true
  | _ => false

/-- Exceptions raised by the embedded code.  `mcmcSetupError` is the module's
`McMcSetupError`; `indexError` a Python `IndexError` from list/array indexing;
`nameError` a Python `NameError`; `exception` a plain `Exception`. -/
inductive PyErr where
  | mcmcSetupError : PyErr
  | indexError : PyErr
  | nameError : PyErr
  | exception : PyErr
deriving DecidableEq

deriving instance DecidableEq for Except

/-- The loop body of `GaussianProposalFunction._calcWidthParameters`: for each
parameter range, read `sigma[i]` (raising `IndexError` when out of range, as
Python does on a list) and replace a `None` entry by
`stepSize * (vMax - vMin)`. -/
def GaussianProposalFunction.calcWidthLoop (stepSize : ℚ) :
    List (ℚ × ℚ) → ℕ → List (Option PyFloat) → Except PyErr (List (Option PyFloat))
  | [], _, sigma => .ok sigma
  | (vMin, vMax) :: rest, i, sigma =>
    match sigma.get? i with
    | none => .error .indexError
    | some entry =>
      GaussianProposalFunction.calcWidthLoop stepSize rest (i + 1)
        (if entry.isNone then sigma.set i (some (.val (stepSize * (vMax - vMin)))) else sigma)

/-- `GaussianProposalFunction._calcWidthParameters`: fill unspecified sigma
entries from the ranges, then convert the list with `numpy.array(sigma,
dtype=float)`, which turns a remaining `None` into NaN. -/
def GaussianProposalFunction.calcWidthParameters (stepSize : ℚ)
    (sigma : List (Option PyFloat)) (parameterRanges : List (ℚ × ℚ)) :
    Except PyErr (List PyFloat) :=
  (GaussianProposalFunction.calcWidthLoop stepSize parameterRanges 0 sigma).map
    (List.map (fun o => o.getD PyFloat.nan))

/-- `GaussianProposalFunction._sanityCheckState`: raise `McMcSetupError` when
the sigma array length differs from the number of parameters or when
`numpy.all(numpy.isfinite(sigma))` fails.  No positivity check is performed. -/
def GaussianProposalFunction.sanityCheckState (nParameters : ℕ) (sigma : List PyFloat) :
    Except PyErr Unit :=
  if sigma.length ≠ nParameters then .error .mcmcSetupError
  else if ¬ (sigma.all PyFloat.isfinite = true) then .error .mcmcSetupError
  else .ok ()

/-- `GaussianProposalFunction.__init__`, returning the constructed sigma array
(the only state the claims need).  `sigmaOpt = none` models the default
`sigma=None`, expanded to `[None] * nParameters`. -/
def GaussianProposalFunction.init (parameterRanges : List (ℚ × ℚ)) (stepSize : ℚ)
    (sigmaOpt : Option (List (Option PyFloat))) : Except PyErr (List PyFloat) := do
  let n := parameterRanges.length
  let sigma0 := sigmaOpt.getD (List.replicate n none)
  let sigma ← GaussianProposalFunction.calcWidthParameters stepSize sigma0 parameterRanges
  let _ ← GaussianProposalFunction.sanityCheckState n sigma
  pure sigma

/-- The test `self.sigma[i] is None` performed by
`GaussianTransformProposalFunction._autoCalcWidthParameters`.  At that point
`self.sigma` is a numpy float64 array, whose elements are never the Python
`None` object, so the test is constantly false. -/
def numpyFloatIsNone (_x : PyFloat) : Bool := false

/-- `GaussianTransformProposalFunction._autoCalcWidthParameters`: iterate the
ranges and overwrite `sigma[i]` when `sigma[i] is None` — which never holds on
the already-converted float array. -/
def GaussianTransformProposalFunction.autoCalcWidthParameters (stepSize : ℚ) :
    List (ℚ × ℚ) → ℕ → List PyFloat → List PyFloat
  | [], _, sigma => sigma
  | (vMin, vMax) :: rest, i, sigma =>
    GaussianTransformProposalFunction.autoCalcWidthParameters stepSize rest (i + 1)
      (if numpyFloatIsNone (sigma.getD i PyFloat.nan)
       then sigma.set i (.val (stepSize * (vMax - vMin))) else sigma)

/-- `GaussianTransformProposalFunction._sanityCheckInput`: only a length
check. -/
def GaussianTransformProposalFunction.sanityCheckInput (nParameters : ℕ)
    (sigma : List PyFloat) : Except PyErr Unit :=
  if sigma.length ≠ nParameters then .error .mcmcSetupError else .ok ()

/-- `GaussianTransformProposalFunction.__init__`, returning the constructed
sigma array.  Note the conversion `numpy.array(sigma, dtype=float)` (turning
`None` entries into NaN) happens before `_autoCalcWidthParameters` runs. -/
def GaussianTransformProposalFunction.init (parameterRanges : List (ℚ × ℚ))
    (stepSize : ℚ) (sigmaOpt : Option (List (Option PyFloat))) :
    Except PyErr (List PyFloat) := do
  let n := parameterRanges.length
  let sigma0 := sigmaOpt.getD (List.replicate n none)
  let sigma := sigma0.map (fun o => o.getD PyFloat.nan)
  let _ ← GaussianTransformProposalFunction.sanityCheckInput n sigma
  pure (GaussianTransformProposalFunction.autoCalcWidthParameters stepSize parameterRanges 0 sigma)

/-- A child proposal of a composite, abstracted by its two pure operations.
Child-local state is irrelevant to `generate`/`logDensity` routing. -/
structure ProposalChild where
  logDensityFn : List ℚ → List ℚ → ℚ
  generateFn : List ℚ → List ℚ

/-- Python slice `v[start:stop]`. -/
def pySlice (v : List ℚ) (start stop : ℕ) : List ℚ := (v.take stop).drop start

/-- `CombinedProposalFunction.__init__`: build `self._fi`, the list of
`(f, start, stop)` triples, accumulating `stop = start + num_pars[i]`. -/
def CombinedProposalFunction.mkFi :
    List ProposalChild → List ℕ → ℕ → List (ProposalChild × ℕ × ℕ)
  | [], _, _ => []
  | _ :: _, [], _ => []
  | f :: fs, k :: rest, start =>
    (f, start, start + k) :: CombinedProposalFunction.mkFi fs rest (start + k)

/-- `CombinedProposalFunction.logDensity`: sum the children's log densities
over their own slices. -/
def CombinedProposalFunction.logDensity (funcs : List ProposalChild)
    (num_pars : List ℕ) (xvec mu : List ℚ) : ℚ :=
  ((CombinedProposalFunction.mkFi funcs num_pars 0).map
    (fun t => t.1.logDensityFn (pySlice xvec t.2.1 t.2.2) (pySlice mu t.2.1 t.2.2))).sum

/-- `CombinedProposalFunction.generate`: concatenate the children's generated
slices in block order. -/
def CombinedProposalFunction.generate (funcs : List ProposalChild)
    (num_pars : List ℕ) (parameters : List ℚ) : List ℚ :=
  ((CombinedProposalFunction.mkFi funcs num_pars 0).map
    (fun t => t.1.generateFn (pySlice parameters t.2.1 t.2.2))).flatten

/-- The loop of `CombinedProposalFunction.adapt`.  Children are pairs of an
optional adapt method (absence models a child without an `adapt` attribute)
and the child's state.  The accumulator statement is
`ret = ret and f.adapt(eff, data)` inside `try ... except AttributeError`:
when `ret` is falsy Python short-circuits, so neither the attribute lookup nor
the call happens.  The result records the final accumulator, the child states
after the loop, and the indices of the children whose `adapt` was invoked. -/
def CombinedProposalFunction.adaptGo {σ δ : Type} (eff : ℚ) (data : δ) :
    List (Option (ℚ → δ → σ → σ × Bool) × σ) → Bool → ℕ → Bool × List σ × List ℕ
  | [], ret, _ => (ret, [], [])
  | (c, s) :: rest, ret, i =>
    if ret then
      match c with
      | none =>
        let r := CombinedProposalFunction.adaptGo eff data rest ret (i + 1)
        (r.1, s :: r.2.1, r.2.2)
      | some a =>
        let p := a eff data s
        let r := CombinedProposalFunction.adaptGo eff data rest p.2 (i + 1)
        (r.1, p.1 :: r.2.1, i :: r.2.2)
    else
      let r := CombinedProposalFunction.adaptGo eff data rest ret (i + 1)
      (r.1, s :: r.2.1, r.2.2)

/-- `CombinedProposalFunction.adapt`, with its accumulator seeded at
`ret = False`. -/
def CombinedProposalFunction.adapt {σ δ : Type} (eff : ℚ) (data : δ)
    (fis : List (Option (ℚ → δ → σ → σ × Bool) × σ)) : Bool × List σ × List ℕ :=
  CombinedProposalFunction.adaptGo eff data fis false 0

/-- Elementwise scaling of a covariance matrix, `cov *= scale`. -/
def covScale (scale : ℚ) (cov : List (List ℚ)) : List (List ℚ) :=
  cov.map (List.map (fun x => x * scale))

/-- State of `SimpleAdaptiveMultiVariateGaussianProposal`: the `_converged`
latch, `_total_scale`, the covariance `_numcov`, and the covariance the
batch-draw generator `_gen` was last built over. -/
structure SimpleAdaptState where
  converged : Bool
  total_scale : ℚ
  numcov : List (List ℚ)
  genCov : List (List ℚ)
deriving DecidableEq

/-- `SimpleAdaptiveMultiVariateGaussianProposal.adapt`: scale-only adaptation
returning `self._converged`. -/
def SimpleAdaptiveMultiVariateGaussianProposal.adapt (st : SimpleAdaptState)
    (eff : ℚ) : SimpleAdaptState × Bool :=
  if st.converged then (st, true)
  else if |eff - 2/5| < 1/10 then ({ st with converged := true }, true)
  else
    (let scale := 1 + 2 * (eff - 2/5)
     let cov := covScale scale st.numcov
     { st with total_scale := st.total_scale * scale, numcov := cov, genCov := cov },
     false)

/-- Fold `SimpleAdaptiveMultiVariateGaussianProposal.adapt` over a sequence of
efficiencies. -/
def SimpleAdaptiveMultiVariateGaussianProposal.adaptSeq (st : SimpleAdaptState)
    (effs : List ℚ) : SimpleAdaptState :=
  effs.foldl (fun s e => (SimpleAdaptiveMultiVariateGaussianProposal.adapt s e).1) st

/-- State of `AdaptiveMultiVariateGaussianProposal`: additionally records the
one-shot re-estimated covariance `_updatedcov`. -/
structure AdaptState where
  converged : Bool
  total_scale : ℚ
  numcov : List (List ℚ)
  updatedcov : Option (List (List ℚ))
  genCov : List (List ℚ)
deriving DecidableEq

/-- `AdaptiveMultiVariateGaussianProposal.adapt`.  `calccov` models
`numpy.cov(data.T)` (external); `data` is the recent-sample history. -/
def AdaptiveMultiVariateGaussianProposal.adapt {δ : Type}
    (calccov : δ → List (List ℚ)) (st : AdaptState) (eff : ℚ) (data : δ) :
    AdaptState × Bool :=
  if st.converged then (st, true)
  else if |eff - 2/5| < 1/10 then ({ st with converged := true }, true)
  else
    (let scale := 1 + 2 * (eff - 2/5)
     let ts := st.total_scale * scale
     if eff > 1/10 ∧ st.updatedcov = none then
       let newcov := covScale ts (calccov data)
       { st with total_scale := ts, numcov := newcov, updatedcov := some newcov,
                 genCov := newcov }
     else
       let newcov := covScale scale st.numcov
       { st with total_scale := ts, numcov := newcov, genCov := newcov },
     false)

/-- Fold `AdaptiveMultiVariateGaussianProposal.adapt` over a sequence of
`(efficiency, data)` pairs. -/
def AdaptiveMultiVariateGaussianProposal.adaptSeq {δ : Type}
    (calccov : δ → List (List ℚ)) (st : AdaptState) (items : List (ℚ × δ)) : AdaptState :=
  items.foldl (fun s it => (AdaptiveMultiVariateGaussianProposal.adapt calccov s it.1 it.2).1) st

/-- The loop of `ProposalWithSomeParametersFixed`'s override: walk the
configured fixed values positionally over the vector; a fixed value at a
position past the end of the vector raises `IndexError` (numpy array indexing),
while a free (`None`) entry performs no indexing at all. -/
def ProposalWithSomeParametersFixed.overrideGo :
    List (Option ℚ) → List ℚ → Except PyErr (List ℚ)
  | [], v => .ok v
  | none :: rest, [] => ProposalWithSomeParametersFixed.overrideGo rest []
  | some _ :: _, [] => .error .indexError
  | none :: rest, w :: vs =>
    (ProposalWithSomeParametersFixed.overrideGo rest vs).map (fun v => w :: v)
  | some c :: rest, _ :: vs =>
    (ProposalWithSomeParametersFixed.overrideGo rest vs).map (fun v => c :: v)

/-- `for index, val in enumerate(self._fixedvalues): if val is not None:
v[index] = val` applied to (a copy of) one vector. -/
def ProposalWithSomeParametersFixed.overrideLoop (fixedvalues : List (Option ℚ))
    (v : List ℚ) : Except PyErr (List ℚ) :=
  ProposalWithSomeParametersFixed.overrideGo fixedvalues v

/-- `ProposalWithSomeParametersFixed.logDensity`.  Only `len(x)` is compared
with the configuration; the mismatch branch evaluates `len(mu)` where `mu` is
an undefined name, so it raises `NameError`.  `wrapped` is the wrapped
proposal's `logDensity`. -/
def ProposalWithSomeParametersFixed.logDensity (fixedvalues : List (Option ℚ))
    (wrapped : List ℚ → List ℚ → ℚ) (x p : List ℚ) : Except PyErr ℚ := do
  if x.length ≠ fixedvalues.length then Except.error .nameError
  else
    let x1 ← ProposalWithSomeParametersFixed.overrideLoop fixedvalues x
    let p1 ← ProposalWithSomeParametersFixed.overrideLoop fixedvalues p
    pure (wrapped x1 p1)

/-- `ProposalWithSomeParametersFixed.generate`: delegate to the wrapped
proposal's `generate` on the raw `parameters`, check the result's length
against the configuration, then overwrite the fixed positions of the result. -/
def ProposalWithSomeParametersFixed.generate (fixedvalues : List (Option ℚ))
    (wrappedGen : List ℚ → List ℚ) (parameters : List ℚ) : Except PyErr (List ℚ) :=
  let result := wrappedGen parameters
  if result.length ≠ fixedvalues.length then .error .exception
  else ProposalWithSomeParametersFixed.overrideLoop fixedvalues result

/-- Modelled from the spec (§4.6), for refinement comparison only: override the
fixed positions in every vector passed to or returned from the wrapped
proposal, in particular the input of `generate` before delegating. -/
def ProposalWithSomeParametersFixed.generateSpec (fixedvalues : List (Option ℚ))
    (wrappedGen : List ℚ → List ℚ) (parameters : List ℚ) : Except PyErr (List ℚ) := do
  let params1 ← ProposalWithSomeParametersFixed.overrideLoop fixedvalues parameters
  let result := wrappedGen params1
  if result.length ≠ fixedvalues.length then Except.error .exception
  else ProposalWithSomeParametersFixed.overrideLoop fixedvalues result

/-- Apply the optional per-dimension transforms to (a copy of) a vector:
`GaussianTransformProposalFunction._applytransformcopy`.  A dimension without
a transform passes through unchanged. -/
def GaussianTransformProposalFunction.applytransformcopy
    (func : List (Option (ℚ → ℚ))) (parameters : List ℚ) : List ℚ :=
  List.zipWith (fun v f => match f with | none => v | some g => g v) parameters func

/-- `GaussianTransformProposalFunction._applyinversetransform`. -/
def GaussianTransformProposalFunction.applyinversetransform
    (invfunc : List (Option (ℚ → ℚ))) (x : List ℚ) : List ℚ :=
  List.zipWith (fun v f => match f with | none => v | some g => g v) x invfunc

/-- `GaussianTransformProposalFunction._checkdomain`: every dimension with an
`indomain` predicate must satisfy it; dimensions with `None` always pass. -/
def GaussianTransformProposalFunction.checkdomain
    (indomain : List (Option (ℚ → Bool))) (x : List ℚ) : Bool :=
  (x.zip indomain).all (fun q => match q.2 with | none => true | some g => g q.1)

/-- The `while True` retry loop of `GaussianTransformProposalFunction.generate`,
with fuel.  `draws k` is the k-th output of the external Gaussian sampler
`cmcmc.gaus_generate` for this call sequence; a draw failing `_checkdomain` is
discarded whole and the next draw is taken. -/
def GaussianTransformProposalFunction.generateGo
    (indomain : List (Option (ℚ → Bool))) (invfunc : List (Option (ℚ → ℚ)))
    (draws : ℕ → List ℚ) : ℕ → ℕ → Option (List ℚ)
  | 0, _ => none
  | fuel + 1, k =>
    if GaussianTransformProposalFunction.checkdomain indomain (draws k)
    then some (GaussianTransformProposalFunction.applyinversetransform invfunc (draws k))
    else GaussianTransformProposalFunction.generateGo indomain invfunc draws fuel (k + 1)

/-- `GaussianTransformProposalFunction.generate` (value produced): transform
the current parameters, then rejection-sample whole draws against the domain
predicates, and map the accepted draw back through the inverse transforms.
`draws p k` models the external Gaussian sampler's k-th draw when centred on
the transformed parameter vector `p`. -/
def GaussianTransformProposalFunction.generate (func invfunc : List (Option (ℚ → ℚ)))
    (indomain : List (Option (ℚ → Bool))) (draws : List ℚ → ℕ → List ℚ)
    (parameters : List ℚ) (fuel : ℕ) : Option (List ℚ) :=
  GaussianTransformProposalFunction.generateGo indomain invfunc
    (draws (GaussianTransformProposalFunction.applytransformcopy func parameters)) fuel 0

/-- The per-instance state a univariate proposal's `generate` touches: its
sigma array and its preallocated output buffer `self._result`. -/
structure GPState where
  sigma : List ℚ
  result : List ℚ
deriving DecidableEq

/-- A vector handed back to the caller: either a reference to the proposal's
shared `_result` buffer, or a freshly allocated vector. -/
inductive VecRef where
  | resultBuf : VecRef
  | fresh : List ℚ → VecRef
deriving DecidableEq

/-- Read a returned vector's current contents, given the current contents of
the owning proposal's `_result` buffer. -/
def VecRef.deref (r : VecRef) (resultContents : List ℚ) : List ℚ :=
  match r with
  | .resultBuf => resultContents
  | .fresh v => v

/-- `GaussianProposalFunction.generate`: `cmcmc.gaus_generate` writes the draw
into `self._result` and that same buffer is returned.  `draw` models the
external sampler's output for this call (a function of `parameters` and
`self.sigma`); the input vector is only read. -/
def GaussianProposalFunction.generate (draw : List ℚ) (s : GPState)
    (_parameters : List ℚ) : GPState × VecRef :=
  ({ s with result := draw }, .resultBuf)

/-- `GaussianTransformProposalFunction.generate` as a state transformer: the
accepted, inverse-transformed candidate is written into `self._result` and
that shared buffer is returned. -/
def GaussianTransformProposalFunction.generateRef (func invfunc : List (Option (ℚ → ℚ)))
    (indomain : List (Option (ℚ → Bool))) (draws : List ℚ → ℕ → List ℚ)
    (fuel : ℕ) (s : GPState) (parameters : List ℚ) : Option (GPState × VecRef) :=
  (GaussianTransformProposalFunction.generate func invfunc indomain draws parameters fuel).map
    (fun v => ({ s with result := v }, VecRef.resultBuf))

/-- State of `MultiVariateGaussianProposal` relevant to `generate`: the
batch-draw generator, modelled as the stream of zero-mean draws it will yield
plus a cursor. -/
structure MVGPState where
  draws : ℕ → List ℚ
  genIndex : ℕ

/-- `MultiVariateGaussianProposal.generate`: pull the next zero-mean draw from
the batch generator and return `vec + parameters`, a freshly allocated numpy
array. -/
def MultiVariateGaussianProposal.generate (s : MVGPState) (parameters : List ℚ) :
    MVGPState × VecRef :=
  ({ s with genIndex := s.genIndex + 1 },
   .fresh (List.zipWith (fun a b => a + b) (s.draws s.genIndex) parameters))

/-- Specification-side partition of a vector into contiguous, non-overlapping
blocks of the given sizes, in order (§4.5 of the spec). -/
def contiguousBlocks : List ℕ → List ℚ → List (List ℚ)
  | [], _ => []
  | k :: rest, v => v.take k :: contiguousBlocks rest (v.drop k)

theorem CombinedProposalFunction.adaptGo_false {σ δ : Type} (eff : ℚ) (data : δ) :
    ∀ (fis : List (Option (ℚ → δ → σ → σ × Bool) × σ)) (i : ℕ),
      CombinedProposalFunction.adaptGo eff data fis false i = (false, fis.map Prod.snd, []) := by
  intro fis
  induction fis with
  | nil => intro i; rfl
  | cons hd tl ih =>
    intro i
    obtain ⟨c, s⟩ := hd
    simp [CombinedProposalFunction.adaptGo, ih (i + 1)]

/-- C10: for every composite proposal, every efficiency and every sample
history, `CombinedProposalFunction.adapt` returns `false`, leaves every child
state untouched and invokes the `adapt` method of none of its children: the
accumulator `ret = False` short-circuits `ret and f.adapt(eff, data)` before
the child call is evaluated. -/
theorem combined_adapt_returns_false_calls_no_child {σ δ : Type} (eff : ℚ) (data : δ)
    (fis : List (Option (ℚ → δ → σ → σ × Bool) × σ)) :
    CombinedProposalFunction.adapt eff data fis = (false, fis.map Prod.snd, []) :=
  CombinedProposalFunction.adaptGo_false eff data fis 0

/-- C1: the code contradicts the specified composite convergence contract.  A
composite with a single child whose `adapt` reports convergence still returns
`false` from `adapt`, with an empty list of invoked children: the AND
accumulator seeded at `False` short-circuits, so the child is never retuned
and the composite can never report convergence. -/
theorem combined_adapt_seeded_false_bug :
    CombinedProposalFunction.adapt (2/5 : ℚ) ()
      [(some (fun _ _ (s : Unit) => (s, true)), ())] = (false, [()], []) := rfl

/-- C7: constructed with no explicit sigma over ranges `[(-5,5), (-5,5)]` and
`stepSize = 0.4`, the plain univariate proposal derives
`sigma = stepSize * (max - min) = [4, 4]`, but the transformed proposal leaves
`sigma = [NaN, NaN]`: it converts the `None` placeholders to a float array
before testing `sigma[i] is None`, so the derivation never fires. -/
theorem width_derivation_plain_vs_transform :
    GaussianProposalFunction.init [(-5, 5), (-5, 5)] (2/5) none
      = .ok [PyFloat.val 4, PyFloat.val 4]
  ∧ GaussianTransformProposalFunction.init [(-5, 5), (-5, 5)] (2/5) none
      = .ok [PyFloat.nan, PyFloat.nan] := by
  constructor
  · simp only [GaussianProposalFunction.init, GaussianProposalFunction.calcWidthParameters,
      GaussianProposalFunction.calcWidthLoop, GaussianProposalFunction.sanityCheckState,
      List.replicate, List.get?, List.set, List.all, Option.getD, Option.isNone,
      PyFloat.isfinite, Except.map, bind, Except.bind, pure, Except.pure]
    norm_num
  · simp [GaussianTransformProposalFunction.init,
      GaussianTransformProposalFunction.sanityCheckInput,
      GaussianTransformProposalFunction.autoCalcWidthParameters, numpyFloatIsNone,
      List.replicate, Option.getD, bind, Except.bind, pure, Except.pure]

theorem GaussianProposalFunction.calcWidthLoop_all_given (step : ℚ) :
    ∀ (ranges : List (ℚ × ℚ)) (s : List PyFloat) (i : ℕ), i + ranges.length ≤ s.length →
      GaussianProposalFunction.calcWidthLoop step ranges i (s.map some) = .ok (s.map some) := by
  intro ranges
  induction ranges with
  | nil => intro s i _; rfl
  | cons ab rest ih =>
    intro s i h
    obtain ⟨a, b⟩ := ab
    have hi : i < s.length := by simp only [List.length_cons] at h; omega
    have hv : s[i]? = some s[i] := List.getElem?_eq_getElem hi
    simp [GaussianProposalFunction.calcWidthLoop, List.get?_eq_getElem?, List.getElem?_map, hv]
    exact ih s (i + 1) (by simp only [List.length_cons] at h; omega)

theorem GaussianProposalFunction.calcWidthLoop_short (step : ℚ) :
    ∀ (ranges : List (ℚ × ℚ)) (s : List PyFloat) (i : ℕ),
      i ≤ s.length → s.length < i + ranges.length →
      GaussianProposalFunction.calcWidthLoop step ranges i (s.map some) = .error .indexError := by
  intro ranges
  induction ranges with
  | nil =>
    intro s i h1 h2
    exfalso
    simp only [List.length_nil] at h2
    omega
  | cons ab rest ih =>
    intro s i h1 h2
    obtain ⟨a, b⟩ := ab
    rcases Nat.lt_or_ge i s.length with hi | hi
    · have hv : s[i]? = some s[i] := List.getElem?_eq_getElem hi
      simp [GaussianProposalFunction.calcWidthLoop, List.get?_eq_getElem?, List.getElem?_map, hv]
      exact ih s (i + 1) (by omega) (by simp only [List.length_cons] at h2; omega)
    · have hv : s[i]? = none := List.getElem?_eq_none hi
      simp [GaussianProposalFunction.calcWidthLoop, List.get?_eq_getElem?, List.getElem?_map, hv]

theorem mapSome_getD_nan : ∀ (s : List PyFloat),
    (s.map some).map (fun o => o.getD PyFloat.nan) = s := by
  intro s
  induction s with
  | nil => rfl
  | cons a t ih => simp [ih]

theorem GaussianTransformProposalFunction.autoCalcWidthParameters_id (step : ℚ) :
    ∀ (ranges : List (ℚ × ℚ)) (i : ℕ) (sigma : List PyFloat),
      GaussianTransformProposalFunction.autoCalcWidthParameters step ranges i sigma = sigma := by
  intro ranges
  induction ranges with
  | nil => intro i sigma; rfl
  | cons ab rest ih =>
    intro i sigma
    obtain ⟨a, b⟩ := ab
    simp [GaussianTransformProposalFunction.autoCalcWidthParameters, numpyFloatIsNone, ih]

/-- C3 (amended): the plain univariate proposal's construction succeeds exactly
when the explicit sigma vector has one entry per parameter and every entry is
finite — non-positive finite entries are accepted; the transformed proposal's
construction succeeds exactly when the length matches — NaN, infinite and
non-positive entries are all accepted. -/
theorem sigma_validation :
    (∀ (ranges : List (ℚ × ℚ)) (step : ℚ) (s : List PyFloat),
        (∃ out, GaussianProposalFunction.init ranges step (some (s.map some)) = .ok out)
          ↔ (s.length = ranges.length ∧ s.all PyFloat.isfinite = true))
  ∧ (∀ (ranges : List (ℚ × ℚ)) (step : ℚ) (s : List PyFloat),
        (∃ out, GaussianTransformProposalFunction.init ranges step (some (s.map some)) = .ok out)
          ↔ s.length = ranges.length) := by
  constructor
  · intro ranges step s
    by_cases hlen : ranges.length ≤ s.length
    · have hcalc := GaussianProposalFunction.calcWidthLoop_all_given step ranges s 0 (by omega)
      simp only [GaussianProposalFunction.init, GaussianProposalFunction.calcWidthParameters,
        Option.getD_some, hcalc, Except.map, bind, Except.bind, mapSome_getD_nan]
      by_cases h1 : s.length = ranges.length
      · by_cases h2 : s.all PyFloat.isfinite = true
        · have hs : GaussianProposalFunction.sanityCheckState ranges.length s = .ok () := by
            simp [GaussianProposalFunction.sanityCheckState, h1, h2]
          rw [hs]
          exact ⟨fun _ => ⟨h1, h2⟩, fun _ => ⟨s, rfl⟩⟩
        · have hs : GaussianProposalFunction.sanityCheckState ranges.length s
              = .error .mcmcSetupError := by
            simp [GaussianProposalFunction.sanityCheckState, h1, h2]
          rw [hs]
          constructor
          · rintro ⟨out, hout⟩
            simp [Except.bind] at hout
          · rintro ⟨_, hfin⟩
            exact absurd hfin h2
      · have hs : GaussianProposalFunction.sanityCheckState ranges.length s
            = .error .mcmcSetupError := by
          simp [GaussianProposalFunction.sanityCheckState, h1]
        rw [hs]
        constructor
        · rintro ⟨out, hout⟩
          simp [Except.bind] at hout
        · rintro ⟨hl, _⟩
          exact absurd hl h1
    · have hcalc := GaussianProposalFunction.calcWidthLoop_short step ranges s 0
        (by omega) (by omega)
      simp only [GaussianProposalFunction.init, GaussianProposalFunction.calcWidthParameters,
        Option.getD_some, hcalc, Except.map, bind, Except.bind]
      constructor
      · rintro ⟨out, hout⟩
        simp at hout
      · rintro ⟨hl, _⟩
        omega
  · intro ranges step s
    simp only [GaussianTransformProposalFunction.init, Option.getD_some, mapSome_getD_nan,
      bind, Except.bind, GaussianTransformProposalFunction.autoCalcWidthParameters_id]
    by_cases h1 : s.length = ranges.length
    · have hs : GaussianTransformProposalFunction.sanityCheckInput ranges.length s = .ok () := by
        simp [GaussianTransformProposalFunction.sanityCheckInput, h1]
      rw [hs]
      exact ⟨fun _ => h1, fun _ => ⟨s, rfl⟩⟩
    · have hs : GaussianTransformProposalFunction.sanityCheckInput ranges.length s
          = .error .mcmcSetupError := by
        simp [GaussianTransformProposalFunction.sanityCheckInput, h1]
      rw [hs]
      constructor
      · rintro ⟨out, hout⟩
        simp [Except.bind] at hout
      · intro hl
        exact absurd hl h1

/-- C3 counterexample: construction does not reject a non-positive sigma — the
plain proposal accepts `sigma = [-1]` — and the transformed proposal does not
reject a NaN sigma entry; in both cases `__init__` completes normally instead
of raising the claimed fatal configuration error. -/
theorem sigma_validation_counterexample :
    (∃ out, GaussianProposalFunction.init [((0 : ℚ), 1)] (2/5)
        (some [some (PyFloat.val (-1))]) = .ok out)
  ∧ (∃ out, GaussianTransformProposalFunction.init [((0 : ℚ), 1)] (1/10)
        (some [some PyFloat.nan]) = .ok out) :=
  ⟨⟨[PyFloat.val (-1)], rfl⟩, ⟨[PyFloat.nan], rfl⟩⟩

theorem simpleAdapt_of_converged
    (st : SimpleAdaptState) (eff : ℚ) (h : st.converged = true) :
    SimpleAdaptiveMultiVariateGaussianProposal.adapt st eff = (st, true) := by
  simp [SimpleAdaptiveMultiVariateGaussianProposal.adapt, h]

theorem simpleAdapt_ret_eq_converged
    (st : SimpleAdaptState) (eff : ℚ) :
    (SimpleAdaptiveMultiVariateGaussianProposal.adapt st eff).2
      = (SimpleAdaptiveMultiVariateGaussianProposal.adapt st eff).1.converged := by
  unfold SimpleAdaptiveMultiVariateGaussianProposal.adapt
  split_ifs with h1 h2
  · exact h1.symm
  · rfl
  · simp only [Bool.not_eq_true] at h1
    exact h1.symm

theorem simpleAdapt_true_latches
    (st : SimpleAdaptState) (eff : ℚ)
    (h : (SimpleAdaptiveMultiVariateGaussianProposal.adapt st eff).2 = true) :
    (SimpleAdaptiveMultiVariateGaussianProposal.adapt st eff).1.converged = true := by
  rw [← simpleAdapt_ret_eq_converged]
  exact h

theorem simpleAdaptSeq_keeps_converged
    (effs : List ℚ) :
    ∀ (st : SimpleAdaptState), st.converged = true →
      (SimpleAdaptiveMultiVariateGaussianProposal.adaptSeq st effs).converged = true := by
  induction effs with
  | nil => intro st h; exact h
  | cons e rest ih =>
    intro st h
    have hstep := simpleAdapt_of_converged st e h
    simp only [SimpleAdaptiveMultiVariateGaussianProposal.adaptSeq, List.foldl_cons]
    simp only [SimpleAdaptiveMultiVariateGaussianProposal.adaptSeq] at ih
    rw [hstep]
    exact ih st h

theorem empiricalAdapt_of_converged {δ : Type}
    (calccov : δ → List (List ℚ)) (st : AdaptState) (eff : ℚ) (data : δ)
    (h : st.converged = true) :
    AdaptiveMultiVariateGaussianProposal.adapt calccov st eff data = (st, true) := by
  simp [AdaptiveMultiVariateGaussianProposal.adapt, h]

theorem empiricalAdapt_ret_eq_converged {δ : Type}
    (calccov : δ → List (List ℚ)) (st : AdaptState) (eff : ℚ) (data : δ) :
    (AdaptiveMultiVariateGaussianProposal.adapt calccov st eff data).2
      = (AdaptiveMultiVariateGaussianProposal.adapt calccov st eff data).1.converged := by
  unfold AdaptiveMultiVariateGaussianProposal.adapt
  split_ifs with h1 h2 h3
  · exact h1.symm
  · rfl
  · simp only [Bool.not_eq_true] at h1
    exact h1.symm
  · simp only [Bool.not_eq_true] at h1
    exact h1.symm

theorem empiricalAdapt_true_latches {δ : Type}
    (calccov : δ → List (List ℚ)) (st : AdaptState) (eff : ℚ) (data : δ)
    (h : (AdaptiveMultiVariateGaussianProposal.adapt calccov st eff data).2 = true) :
    (AdaptiveMultiVariateGaussianProposal.adapt calccov st eff data).1.converged = true := by
  rw [← empiricalAdapt_ret_eq_converged]
  exact h

theorem empiricalAdaptSeq_keeps_converged {δ : Type}
    (calccov : δ → List (List ℚ)) (items : List (ℚ × δ)) :
    ∀ (st : AdaptState), st.converged = true →
      (AdaptiveMultiVariateGaussianProposal.adaptSeq calccov st items).converged = true := by
  induction items with
  | nil => intro st h; exact h
  | cons it rest ih =>
    intro st h
    have hstep := empiricalAdapt_of_converged calccov st it.1 it.2 h
    simp only [AdaptiveMultiVariateGaussianProposal.adaptSeq, List.foldl_cons]
    simp only [AdaptiveMultiVariateGaussianProposal.adaptSeq] at ih
    rw [hstep]
    exact ih st h

/-- C2: for both adaptive controllers, `converged` is a one-way latch.  Once
an `adapt` call returns `true`, every later `adapt` call — after any
intervening sequence of further `adapt` calls — returns `true` as well. -/
theorem adaptive_convergence_latch :
    (∀ (st : SimpleAdaptState) (eff : ℚ),
        (SimpleAdaptiveMultiVariateGaussianProposal.adapt st eff).2 = true →
        ∀ (effs : List ℚ) (eff2 : ℚ),
          (SimpleAdaptiveMultiVariateGaussianProposal.adapt
            (SimpleAdaptiveMultiVariateGaussianProposal.adaptSeq
              (SimpleAdaptiveMultiVariateGaussianProposal.adapt st eff).1 effs) eff2).2 = true)
  ∧ (∀ (δ : Type) (calccov : δ → List (List ℚ)) (st : AdaptState) (eff : ℚ) (data : δ),
        (AdaptiveMultiVariateGaussianProposal.adapt calccov st eff data).2 = true →
        ∀ (items : List (ℚ × δ)) (eff2 : ℚ) (data2 : δ),
          (AdaptiveMultiVariateGaussianProposal.adapt calccov
            (AdaptiveMultiVariateGaussianProposal.adaptSeq calccov
              (AdaptiveMultiVariateGaussianProposal.adapt calccov st eff data).1 items)
            eff2 data2).2 = true) := by
  constructor
  · intro st eff h effs eff2
    have h1 := simpleAdapt_true_latches st eff h
    have h2 := simpleAdaptSeq_keeps_converged effs _ h1
    rw [simpleAdapt_of_converged _ eff2 h2]
  · intro δ calccov st eff data h items eff2 data2
    have h1 := empiricalAdapt_true_latches calccov st eff data h
    have h2 := empiricalAdaptSeq_keeps_converged calccov items _ h1
    rw [empiricalAdapt_of_converged calccov _ eff2 data2 h2]

/-- C2 witness: a controller that converges at efficiency 0.4 keeps reporting
`true` through later calls at efficiencies 1 and 0, for both controllers. -/
theorem adaptive_convergence_latch_witness :
    (SimpleAdaptiveMultiVariateGaussianProposal.adapt
      (SimpleAdaptiveMultiVariateGaussianProposal.adaptSeq
        (SimpleAdaptiveMultiVariateGaussianProposal.adapt
          ⟨false, 1, [[1]], [[1]]⟩ (2/5)).1 [1]) 0).2 = true
  ∧ (AdaptiveMultiVariateGaussianProposal.adapt (fun _ : Unit => [[1]])
      (AdaptiveMultiVariateGaussianProposal.adaptSeq (fun _ : Unit => [[1]])
        (AdaptiveMultiVariateGaussianProposal.adapt (fun _ : Unit => [[1]])
          ⟨false, 1, [[1]], none, [[1]]⟩ (2/5) ()).1 [(1, ())]) 0 ()).2 = true :=
  ⟨adaptive_convergence_latch.1 ⟨false, 1, [[1]], [[1]]⟩ (2/5)
      (by norm_num [SimpleAdaptiveMultiVariateGaussianProposal.adapt]) [1] 0,
   adaptive_convergence_latch.2 Unit (fun _ => [[1]]) ⟨false, 1, [[1]], none, [[1]]⟩ (2/5) ()
      (by norm_num [AdaptiveMultiVariateGaussianProposal.adapt]) [(1, ())] 0 ()⟩

/-- C5 (amended): a non-converged scale-only controller latches
`converged = true` without touching any state when `|eff - 0.4| < 0.1` (in
particular at `eff = 0.4` on the first call); otherwise it scales the
covariance and the cumulative scale by `scale = 1 + 2*(eff - 0.4)` — so
`eff = 0.6` gives scale `1.4` — and rebuilds the batch-draw generator over the
new covariance. -/
theorem simple_adapt_step (st : SimpleAdaptState) (h : st.converged = false) :
    (∀ eff : ℚ, |eff - 2/5| < 1/10 →
        SimpleAdaptiveMultiVariateGaussianProposal.adapt st eff
          = ({ st with converged := true }, true))
  ∧ (∀ eff : ℚ, ¬(|eff - 2/5| < 1/10) →
        SimpleAdaptiveMultiVariateGaussianProposal.adapt st eff
          = ({ st with total_scale := st.total_scale * (1 + 2 * (eff - 2/5)),
                       numcov := covScale (1 + 2 * (eff - 2/5)) st.numcov,
                       genCov := covScale (1 + 2 * (eff - 2/5)) st.numcov }, false))
  ∧ SimpleAdaptiveMultiVariateGaussianProposal.adapt st (2/5)
      = ({ st with converged := true }, true)
  ∧ (SimpleAdaptiveMultiVariateGaussianProposal.adapt st (3/5)).1.total_scale
      = st.total_scale * (7/5)
  ∧ (SimpleAdaptiveMultiVariateGaussianProposal.adapt st (3/5)).1.numcov
      = covScale (7/5) st.numcov := by
  have ha : ∀ eff : ℚ, |eff - 2/5| < 1/10 →
      SimpleAdaptiveMultiVariateGaussianProposal.adapt st eff
        = ({ st with converged := true }, true) := by
    intro eff heff
    unfold SimpleAdaptiveMultiVariateGaussianProposal.adapt
    rw [h, if_neg Bool.false_ne_true, if_pos heff]
  have hb : ∀ eff : ℚ, ¬(|eff - 2/5| < 1/10) →
      SimpleAdaptiveMultiVariateGaussianProposal.adapt st eff
        = ({ st with total_scale := st.total_scale * (1 + 2 * (eff - 2/5)),
                     numcov := covScale (1 + 2 * (eff - 2/5)) st.numcov,
                     genCov := covScale (1 + 2 * (eff - 2/5)) st.numcov }, false) := by
    intro eff heff
    unfold SimpleAdaptiveMultiVariateGaussianProposal.adapt
    rw [h, if_neg Bool.false_ne_true, if_neg heff]
  have h06 : ¬(|(3 : ℚ)/5 - 2/5| < 1/10) := by
    rw [abs_sub_lt_iff]
    norm_num
  refine ⟨ha, hb, ha (2/5) (by rw [abs_sub_lt_iff]; norm_num), ?_, ?_⟩
  · rw [hb (3/5) h06]
    norm_num
  · rw [hb (3/5) h06]
    norm_num

/-- C5 counterexample: starting from cumulative scale 1, one `adapt` call at
efficiency `0.6` leaves cumulative scale `1.4 = 1 + 2*(0.6 - 0.4)`, not the
claimed `1.2`. -/
theorem simple_adapt_scale_counterexample :
    (SimpleAdaptiveMultiVariateGaussianProposal.adapt
        ⟨false, 1, [[1]], [[1]]⟩ (3/5)).1.total_scale = 7/5
  ∧ (SimpleAdaptiveMultiVariateGaussianProposal.adapt
        ⟨false, 1, [[1]], [[1]]⟩ (3/5)).1.total_scale ≠ 6/5 := by
  have h06 : ¬(|(3 : ℚ)/5 - 2/5| < 1/10) := by
    rw [abs_sub_lt_iff]
    norm_num
  have hstep : SimpleAdaptiveMultiVariateGaussianProposal.adapt
      (⟨false, 1, [[1]], [[1]]⟩ : SimpleAdaptState) (3/5)
      = (⟨false, 1 * (1 + 2 * ((3 : ℚ)/5 - 2/5)), covScale (1 + 2 * ((3 : ℚ)/5 - 2/5)) [[1]],
          covScale (1 + 2 * ((3 : ℚ)/5 - 2/5)) [[1]]⟩, false) := by
    unfold SimpleAdaptiveMultiVariateGaussianProposal.adapt
    rw [if_neg (by decide : ¬((⟨false, 1, [[1]], [[1]]⟩ : SimpleAdaptState).converged = true)),
      if_neg h06]
  rw [hstep]
  constructor
  · norm_num
  · norm_num

/-- C5 witness: instantiation of `simple_adapt_step` at a concrete
non-converged state: convergence at efficiency 0.4 on the first call, and the
1.4 rescaling at efficiency 0.6. -/
theorem simple_adapt_step_witness :
    SimpleAdaptiveMultiVariateGaussianProposal.adapt ⟨false, 1, [[1]], [[1]]⟩ (2/5)
      = ({ (⟨false, 1, [[1]], [[1]]⟩ : SimpleAdaptState) with converged := true }, true)
  ∧ (SimpleAdaptiveMultiVariateGaussianProposal.adapt
      ⟨false, 1, [[1]], [[1]]⟩ (3/5)).1.total_scale = 1 * (7/5)
  ∧ (SimpleAdaptiveMultiVariateGaussianProposal.adapt
      ⟨false, 1, [[1]], [[1]]⟩ (3/5)).1.numcov = covScale (7/5) [[1]] :=
  ⟨(simple_adapt_step ⟨false, 1, [[1]], [[1]]⟩ rfl).2.2.1,
   (simple_adapt_step ⟨false, 1, [[1]], [[1]]⟩ rfl).2.2.2.1,
   (simple_adapt_step ⟨false, 1, [[1]], [[1]]⟩ rfl).2.2.2.2⟩

theorem pySlice_block (v : List ℚ) (start k : ℕ) :
    pySlice v start (start + k) = (v.drop start).take k := by
  unfold pySlice
  rw [List.drop_take]
  congr 1
  omega

theorem CombinedProposalFunction.mkFi_logDensity_blocks
    (F : ProposalChild → List ℚ → List ℚ → ℚ) :
    ∀ (funcs : List ProposalChild) (nums : List ℕ) (start : ℕ) (x p : List ℚ),
      ((CombinedProposalFunction.mkFi funcs nums start).map
          (fun t => F t.1 (pySlice x t.2.1 t.2.2) (pySlice p t.2.1 t.2.2)))
        = List.zipWith (fun f bp => F f bp.1 bp.2) funcs
            ((contiguousBlocks nums (x.drop start)).zip (contiguousBlocks nums (p.drop start))) := by
  intro funcs
  induction funcs with
  | nil => intro nums start x p; simp [CombinedProposalFunction.mkFi]
  | cons f fs ih =>
    intro nums start x p
    cases nums with
    | nil => simp [CombinedProposalFunction.mkFi, contiguousBlocks]
    | cons k rest =>
      simp only [CombinedProposalFunction.mkFi, List.map_cons, contiguousBlocks,
        List.zip_cons_cons, List.zipWith_cons_cons]
      rw [pySlice_block x start k, pySlice_block p start k,
        List.drop_drop k start x, List.drop_drop k start p]
      rw [ih rest (start + k) x p]

theorem CombinedProposalFunction.mkFi_generate_blocks
    (G : ProposalChild → List ℚ → List ℚ) :
    ∀ (funcs : List ProposalChild) (nums : List ℕ) (start : ℕ) (params : List ℚ),
      ((CombinedProposalFunction.mkFi funcs nums start).map
          (fun t => G t.1 (pySlice params t.2.1 t.2.2)))
        = List.zipWith (fun f b => G f b) funcs (contiguousBlocks nums (params.drop start)) := by
  intro funcs
  induction funcs with
  | nil => intro nums start params; simp [CombinedProposalFunction.mkFi]
  | cons f fs ih =>
    intro nums start params
    cases nums with
    | nil => simp [CombinedProposalFunction.mkFi, contiguousBlocks]
    | cons k rest =>
      simp only [CombinedProposalFunction.mkFi, List.map_cons, contiguousBlocks,
        List.zipWith_cons_cons]
      rw [pySlice_block params start k, List.drop_drop k start params]
      rw [ih rest (start + k) params]

/-- C6: for every composite proposal, `logDensity` over the full vectors is
the sum of the children's log densities over the contiguous, non-overlapping
blocks of the partition, and `generate` is the concatenation, in block order,
of the children's generated slices. -/
theorem combined_blockwise (funcs : List ProposalChild) (nums : List ℕ)
    (x p params : List ℚ) :
    CombinedProposalFunction.logDensity funcs nums x p
      = (List.zipWith (fun f bp => ProposalChild.logDensityFn f bp.1 bp.2) funcs
          ((contiguousBlocks nums x).zip (contiguousBlocks nums p))).sum
  ∧ CombinedProposalFunction.generate funcs nums params
      = (List.zipWith (fun f b => ProposalChild.generateFn f b) funcs
          (contiguousBlocks nums params)).flatten := by
  constructor
  · unfold CombinedProposalFunction.logDensity
    rw [CombinedProposalFunction.mkFi_logDensity_blocks
      (fun f a b => f.logDensityFn a b) funcs nums 0 x p]
    rw [List.drop_zero, List.drop_zero]
  · unfold CombinedProposalFunction.generate
    rw [CombinedProposalFunction.mkFi_generate_blocks
      (fun f a => f.generateFn a) funcs nums 0 params]
    rw [List.drop_zero]

theorem ProposalWithSomeParametersFixed.overrideGo_ok :
    ∀ (fv : List (Option ℚ)) (v : List ℚ), fv.length ≤ v.length →
      ∃ v1, ProposalWithSomeParametersFixed.overrideGo fv v = .ok v1 := by
  intro fv
  induction fv with
  | nil => intro v _; exact ⟨v, rfl⟩
  | cons o rest ih =>
    intro v h
    cases v with
    | nil => simp at h
    | cons w vs =>
      have hlen : rest.length ≤ vs.length := by simp at h; omega
      obtain ⟨v1, hv1⟩ := ih vs hlen
      cases o with
      | none =>
        exact ⟨w :: v1, by simp [ProposalWithSomeParametersFixed.overrideGo, hv1, Except.map]⟩
      | some c =>
        exact ⟨c :: v1, by simp [ProposalWithSomeParametersFixed.overrideGo, hv1, Except.map]⟩

theorem ProposalWithSomeParametersFixed.overrideGo_nil_arg :
    ∀ (fv : List (Option ℚ)) (v1 : List ℚ),
      ProposalWithSomeParametersFixed.overrideGo fv [] = .ok v1 → v1 = [] := by
  intro fv
  induction fv with
  | nil => intro v1 h; cases h; rfl
  | cons o rest ih =>
    intro v1 h
    cases o with
    | none => exact ih v1 h
    | some c => simp [ProposalWithSomeParametersFixed.overrideGo] at h

theorem ProposalWithSomeParametersFixed.overrideGo_fixed :
    ∀ (fv : List (Option ℚ)) (v v1 : List ℚ),
      ProposalWithSomeParametersFixed.overrideGo fv v = .ok v1 →
      ∀ (i : ℕ) (c : ℚ), fv[i]? = some (some c) → v1[i]? = some c := by
  intro fv
  induction fv with
  | nil => intro v v1 _ i c hc; simp at hc
  | cons o rest ih =>
    intro v v1 h i c hc
    cases v with
    | nil =>
      cases o with
      | none =>
        have hnil := ProposalWithSomeParametersFixed.overrideGo_nil_arg rest v1 h
        subst hnil
        cases i with
        | zero => simp at hc
        | succ j =>
          simp only [List.getElem?_cons_succ] at hc
          exact ih [] [] h j c hc
      | some c0 => simp [ProposalWithSomeParametersFixed.overrideGo] at h
    | cons w vs =>
      cases o with
      | none =>
        simp only [ProposalWithSomeParametersFixed.overrideGo] at h
        cases hrec : ProposalWithSomeParametersFixed.overrideGo rest vs with
        | error e => rw [hrec] at h; simp [Except.map] at h
        | ok u =>
          rw [hrec] at h
          simp only [Except.map] at h
          cases h
          cases i with
          | zero => simp at hc
          | succ j =>
            simp only [List.getElem?_cons_succ] at hc ⊢
            exact ih vs u hrec j c hc
      | some c0 =>
        simp only [ProposalWithSomeParametersFixed.overrideGo] at h
        cases hrec : ProposalWithSomeParametersFixed.overrideGo rest vs with
        | error e => rw [hrec] at h; simp [Except.map] at h
        | ok u =>
          rw [hrec] at h
          simp only [Except.map] at h
          cases h
          cases i with
          | zero =>
            simp only [List.getElem?_cons_zero] at hc ⊢
            cases hc
            rfl
          | succ j =>
            simp only [List.getElem?_cons_succ] at hc ⊢
            exact ih vs u hrec j c hc

theorem ProposalWithSomeParametersFixed.overrideGo_free :
    ∀ (fv : List (Option ℚ)) (v v1 : List ℚ),
      ProposalWithSomeParametersFixed.overrideGo fv v = .ok v1 →
      ∀ (i : ℕ), fv[i]? = some none → v1[i]? = v[i]? := by
  intro fv
  induction fv with
  | nil => intro v v1 _ i hc; simp at hc
  | cons o rest ih =>
    intro v v1 h i hc
    cases v with
    | nil =>
      cases o with
      | none =>
        have hnil := ProposalWithSomeParametersFixed.overrideGo_nil_arg rest v1 h
        subst hnil
        rfl
      | some c0 => simp [ProposalWithSomeParametersFixed.overrideGo] at h
    | cons w vs =>
      cases o with
      | none =>
        simp only [ProposalWithSomeParametersFixed.overrideGo] at h
        cases hrec : ProposalWithSomeParametersFixed.overrideGo rest vs with
        | error e => rw [hrec] at h; simp [Except.map] at h
        | ok u =>
          rw [hrec] at h
          simp only [Except.map] at h
          cases h
          cases i with
          | zero => simp
          | succ j =>
            simp only [List.getElem?_cons_succ] at hc ⊢
            exact ih vs u hrec j hc
      | some c0 =>
        simp only [ProposalWithSomeParametersFixed.overrideGo] at h
        cases hrec : ProposalWithSomeParametersFixed.overrideGo rest vs with
        | error e => rw [hrec] at h; simp [Except.map] at h
        | ok u =>
          rw [hrec] at h
          simp only [Except.map] at h
          cases h
          cases i with
          | zero => simp at hc
          | succ j =>
            simp only [List.getElem?_cons_succ] at hc ⊢
            exact ih vs u hrec j hc

/-- C4 (amended): the fixed positions equal their literal constants in the
vector returned by `generate` and in both vectors the decorator passes to the
wrapped proposal's `logDensity` (free positions pass through unchanged there);
the input of `generate` is forwarded to the wrapped proposal unmodified —
only the result is overridden; `generate` raises when the wrapped result's
length mismatches the configuration and `logDensity` raises when `x`'s length
mismatches (`p`'s length is not checked). -/
theorem fixed_subset_behavior :
    (∀ (fv : List (Option ℚ)) (g : List ℚ → List ℚ) (params r : List ℚ),
        ProposalWithSomeParametersFixed.generate fv g params = .ok r →
        ∀ (i : ℕ) (c : ℚ), fv[i]? = some (some c) → r[i]? = some c)
  ∧ (∀ (fv : List (Option ℚ)) (g g2 : List ℚ → List ℚ) (params : List ℚ),
        g params = g2 params →
        ProposalWithSomeParametersFixed.generate fv g params
          = ProposalWithSomeParametersFixed.generate fv g2 params)
  ∧ (∀ (fv : List (Option ℚ)) (ld : List ℚ → List ℚ → ℚ) (x p : List ℚ),
        x.length = fv.length → p.length = fv.length →
        ∃ x1 p1, ProposalWithSomeParametersFixed.logDensity fv ld x p = .ok (ld x1 p1)
          ∧ (∀ (i : ℕ) (c : ℚ), fv[i]? = some (some c) → x1[i]? = some c ∧ p1[i]? = some c)
          ∧ (∀ i : ℕ, fv[i]? = some none → x1[i]? = x[i]? ∧ p1[i]? = p[i]?))
  ∧ (∀ (fv : List (Option ℚ)) (g : List ℚ → List ℚ) (params : List ℚ),
        (g params).length ≠ fv.length →
        ProposalWithSomeParametersFixed.generate fv g params = .error .exception)
  ∧ (∀ (fv : List (Option ℚ)) (ld : List ℚ → List ℚ → ℚ) (x p : List ℚ),
        x.length ≠ fv.length →
        ProposalWithSomeParametersFixed.logDensity fv ld x p = .error .nameError) := by
  refine ⟨?_, ?_, ?_, ?_, ?_⟩
  · intro fv g params r hok i c hc
    unfold ProposalWithSomeParametersFixed.generate at hok
    by_cases hl : (g params).length = fv.length
    · rw [if_neg (not_not_intro hl)] at hok
      exact ProposalWithSomeParametersFixed.overrideGo_fixed fv (g params) r hok i c hc
    · rw [if_pos hl] at hok
      exact absurd hok (by simp)
  · intro fv g g2 params hg
    unfold ProposalWithSomeParametersFixed.generate
    rw [hg]
  · intro fv ld x p hx hp
    obtain ⟨x1, hx1⟩ := ProposalWithSomeParametersFixed.overrideGo_ok fv x (by omega)
    obtain ⟨p1, hp1⟩ := ProposalWithSomeParametersFixed.overrideGo_ok fv p (by omega)
    refine ⟨x1, p1, ?_, ?_, ?_⟩
    · unfold ProposalWithSomeParametersFixed.logDensity
      rw [if_neg (not_not_intro hx)]
      simp only [ProposalWithSomeParametersFixed.overrideLoop] at hx1 hp1 ⊢
      simp [hx1, hp1, bind, Except.bind, pure, Except.pure]
    · intro i c hc
      exact ⟨ProposalWithSomeParametersFixed.overrideGo_fixed fv x x1 hx1 i c hc,
        ProposalWithSomeParametersFixed.overrideGo_fixed fv p p1 hp1 i c hc⟩
    · intro i hc
      exact ⟨ProposalWithSomeParametersFixed.overrideGo_free fv x x1 hx1 i hc,
        ProposalWithSomeParametersFixed.overrideGo_free fv p p1 hp1 i hc⟩
  · intro fv g params hl
    unfold ProposalWithSomeParametersFixed.generate
    rw [if_pos hl]
  · intro fv ld x p hl
    unfold ProposalWithSomeParametersFixed.logDensity
    rw [if_pos hl]

/-- C4 counterexample: the claim requires the fixed positions to be overridden
in every vector passed to the wrapped proposal, including the input of
`generate`; the code forwards the raw input instead, observably: a wrapped
generator that copies the (fixed) position 0 into the free position 1 sees the
caller's value 5 rather than the fixed constant 0, so the decorated result
differs from the specified behaviour. -/
theorem fixed_subset_generate_counterexample :
    ProposalWithSomeParametersFixed.generate [some 0, none]
      (fun v => [v.headD 0, v.headD 0]) [5, 7] = .ok [0, 5]
  ∧ ProposalWithSomeParametersFixed.generateSpec [some 0, none]
      (fun v => [v.headD 0, v.headD 0]) [5, 7] = .ok [0, 0]
  ∧ ProposalWithSomeParametersFixed.generate [some 0, none]
      (fun v => [v.headD 0, v.headD 0]) [5, 7]
    ≠ ProposalWithSomeParametersFixed.generateSpec [some 0, none]
      (fun v => [v.headD 0, v.headD 0]) [5, 7] := by
  have h1 : ProposalWithSomeParametersFixed.generate [some 0, none]
      (fun v => [v.headD 0, v.headD 0]) [5, 7] = .ok [0, 5] := rfl
  have h2 : ProposalWithSomeParametersFixed.generateSpec [some 0, none]
      (fun v => [v.headD 0, v.headD 0]) [5, 7] = .ok [0, 0] := rfl
  refine ⟨h1, h2, ?_⟩
  rw [h1, h2]
  intro hcontra
  have : ([0, 5] : List ℚ) = [0, 0] := by injection hcontra
  simp at this

/-- C4 witness: instantiation of `fixed_subset_behavior` at the configuration
`[fixed 0]` with `x = [5]`, `p = [7]`. -/
theorem fixed_subset_behavior_witness :
    ∃ x1 p1, ProposalWithSomeParametersFixed.logDensity [some 0]
        (fun a b => a.headD 0 + b.headD 0) [5] [7] = .ok ((fun (a b : List ℚ) => a.headD 0 + b.headD 0) x1 p1)
      ∧ (∀ (i : ℕ) (c : ℚ), [some (0 : ℚ)][i]? = some (some c) → x1[i]? = some c ∧ p1[i]? = some c)
      ∧ (∀ i : ℕ, [some (0 : ℚ)][i]? = some none → x1[i]? = ([5] : List ℚ)[i]? ∧ p1[i]? = ([7] : List ℚ)[i]?) :=
  fixed_subset_behavior.2.2.1 [some 0] (fun a b => a.headD 0 + b.headD 0) [5] [7] rfl rfl

theorem GaussianTransformProposalFunction.checkdomain_iff :
    ∀ (x : List ℚ) (indomain : List (Option (ℚ → Bool))),
      GaussianTransformProposalFunction.checkdomain indomain x = true ↔
        ∀ (i : ℕ) (g : ℚ → Bool) (xi : ℚ),
          indomain[i]? = some (some g) → x[i]? = some xi → g xi = true := by
  intro x
  induction x with
  | nil =>
    intro indomain
    constructor
    · intro _ i g xi _ hxi
      simp at hxi
    · intro _
      rfl
  | cons xi xs ih =>
    intro indomain
    cases indomain with
    | nil =>
      constructor
      · intro _ i g xi' hgi _
        simp at hgi
      · intro _
        rfl
    | cons f fs =>
      have hsplit : GaussianTransformProposalFunction.checkdomain (f :: fs) (xi :: xs) = true ↔
          ((match f with | none => true | some g => g xi) = true
            ∧ GaussianTransformProposalFunction.checkdomain fs xs = true) := by
        simp [GaussianTransformProposalFunction.checkdomain, List.zip_cons_cons, List.all_cons]
      rw [hsplit, ih fs]
      constructor
      · rintro ⟨hhead, htail⟩ i g xi' hgi hxi
        cases i with
        | zero =>
          simp only [List.getElem?_cons_zero] at hgi hxi
          injection hgi with hf
          injection hxi with hx
          subst hf
          subst hx
          exact hhead
        | succ j =>
          simp only [List.getElem?_cons_succ] at hgi hxi
          exact htail j g xi' hgi hxi
      · intro hall
        constructor
        · cases f with
          | none => rfl
          | some g => exact hall 0 g xi (by simp) (by simp)
        · intro j g xi' hgi hxi
          exact hall (j + 1) g xi' (by simpa using hgi) (by simpa using hxi)

theorem GaussianTransformProposalFunction.generateGo_some
    (indomain : List (Option (ℚ → Bool))) (invfunc : List (Option (ℚ → ℚ)))
    (draws : ℕ → List ℚ) :
    ∀ (fuel k : ℕ) (v : List ℚ),
      GaussianTransformProposalFunction.generateGo indomain invfunc draws fuel k = some v →
      ∃ n, k ≤ n
        ∧ GaussianTransformProposalFunction.checkdomain indomain (draws n) = true
        ∧ (∀ j, k ≤ j → j < n →
            GaussianTransformProposalFunction.checkdomain indomain (draws j) = false)
        ∧ v = GaussianTransformProposalFunction.applyinversetransform invfunc (draws n) := by
  intro fuel
  induction fuel with
  | zero =>
    intro k v h
    simp [GaussianTransformProposalFunction.generateGo] at h
  | succ m ih =>
    intro k v h
    unfold GaussianTransformProposalFunction.generateGo at h
    by_cases hc : GaussianTransformProposalFunction.checkdomain indomain (draws k) = true
    · rw [if_pos hc] at h
      refine ⟨k, Nat.le_refl k, hc, ?_, (Option.some.inj h).symm⟩
      intro j hj1 hj2
      omega
    · rw [if_neg hc] at h
      simp only [Bool.not_eq_true] at hc
      obtain ⟨n, hn1, hn2, hn3, hn4⟩ := ih (k + 1) v h
      refine ⟨n, by omega, hn2, ?_, hn4⟩
      intro j hj1 hj2
      rcases Nat.eq_or_lt_of_le hj1 with hj | hj
      · rw [← hj]
        exact hc
      · exact hn3 j hj hj2

/-- C8: whenever the transformed proposal's `generate` returns a vector, there
is a draw index n whose whole candidate satisfies every per-dimension
`indomain` predicate, all earlier whole draws failed and were retried entire,
and the returned vector is the accepted candidate mapped through the inverse
transforms; a candidate passes `checkdomain` exactly when every dimension that
has a predicate satisfies it — dimensions without one always pass. -/
theorem transform_generate_domain_rejection :
    (∀ (func invfunc : List (Option (ℚ → ℚ))) (indomain : List (Option (ℚ → Bool)))
        (draws : List ℚ → ℕ → List ℚ) (parameters : List ℚ) (fuel : ℕ) (v : List ℚ),
        GaussianTransformProposalFunction.generate func invfunc indomain draws parameters fuel
          = some v →
        ∃ n, GaussianTransformProposalFunction.checkdomain indomain
              (draws (GaussianTransformProposalFunction.applytransformcopy func parameters) n)
              = true
          ∧ (∀ j < n, GaussianTransformProposalFunction.checkdomain indomain
              (draws (GaussianTransformProposalFunction.applytransformcopy func parameters) j)
              = false)
          ∧ v = GaussianTransformProposalFunction.applyinversetransform invfunc
              (draws (GaussianTransformProposalFunction.applytransformcopy func parameters) n))
  ∧ (∀ (indomain : List (Option (ℚ → Bool))) (x : List ℚ),
        GaussianTransformProposalFunction.checkdomain indomain x = true ↔
          ∀ (i : ℕ) (g : ℚ → Bool) (xi : ℚ),
            indomain[i]? = some (some g) → x[i]? = some xi → g xi = true) := by
  constructor
  · intro func invfunc indomain draws parameters fuel v h
    unfold GaussianTransformProposalFunction.generate at h
    obtain ⟨n, _, hn2, hn3, hn4⟩ :=
      GaussianTransformProposalFunction.generateGo_some indomain invfunc _ fuel 0 v h
    exact ⟨n, hn2, fun j hj => hn3 j (Nat.zero_le j) hj, hn4⟩
  · intro indomain x
    exact GaussianTransformProposalFunction.checkdomain_iff x indomain

/-- C8 witness: one dimension constrained to equal 2, draws `[-1]` then `[2]`:
the first whole draw is rejected, the second accepted and returned. -/
theorem transform_generate_domain_rejection_witness :
    ∃ n, GaussianTransformProposalFunction.checkdomain [some (fun q : ℚ => decide (q = 2))]
          ((fun (_ : List ℚ) (k : ℕ) => if k = 0 then [(-1 : ℚ)] else [2])
            (GaussianTransformProposalFunction.applytransformcopy [none] [0]) n) = true
      ∧ (∀ j < n, GaussianTransformProposalFunction.checkdomain
            [some (fun q : ℚ => decide (q = 2))]
            ((fun (_ : List ℚ) (k : ℕ) => if k = 0 then [(-1 : ℚ)] else [2])
              (GaussianTransformProposalFunction.applytransformcopy [none] [0]) j) = false)
      ∧ [(2 : ℚ)] = GaussianTransformProposalFunction.applyinversetransform [none]
          ((fun (_ : List ℚ) (k : ℕ) => if k = 0 then [(-1 : ℚ)] else [2])
            (GaussianTransformProposalFunction.applytransformcopy [none] [0]) n) :=
  transform_generate_domain_rejection.1 [none] [none] [some (fun q : ℚ => decide (q = 2))]
    (fun _ k => if k = 0 then [(-1 : ℚ)] else [2]) [0] 3 [2] rfl

/-- C9 counterexample: the plain Gaussian proposal returns its shared
`_result` buffer.  After a first `generate` whose draw is `[1]`, the returned
vector reads `[1]`; after a second `generate` whose draw is `[2]`, re-reading
the vector returned by the first call yields `[2]` — the later call mutated
the earlier returned vector's contents, contradicting the claim. -/
theorem generate_buffer_counterexample :
    VecRef.deref (GaussianProposalFunction.generate [1] ⟨[1], [0]⟩ [0]).2
        ((GaussianProposalFunction.generate [2]
          (GaussianProposalFunction.generate [1] ⟨[1], [0]⟩ [0]).1 [0]).1).result
      ≠ VecRef.deref (GaussianProposalFunction.generate [1] ⟨[1], [0]⟩ [0]).2
        ((GaussianProposalFunction.generate [1] ⟨[1], [0]⟩ [0]).1).result := by
  intro h
  have : ([2] : List ℚ) = [1] := h
  simp at this

/-- C9 (amended): the multivariate proposal's `generate` returns a freshly
allocated vector whose contents are independent of any later buffer state, and
the caller's input is only read; but the plain and transformed Gaussian
proposals return their shared preallocated `_result` buffer, so a later
`generate` call overwrites the contents of a previously returned vector with
the new draw. -/
theorem generate_aliasing :
    (∀ (draw : List ℚ) (s : GPState) (params : List ℚ),
        (GaussianProposalFunction.generate draw s params).2 = VecRef.resultBuf
          ∧ (GaussianProposalFunction.generate draw s params).1.result = draw
          ∧ (GaussianProposalFunction.generate draw s params).1.sigma = s.sigma)
  ∧ (∀ (draw1 draw2 : List ℚ) (s : GPState) (p1 p2 : List ℚ),
        VecRef.deref (GaussianProposalFunction.generate draw1 s p1).2
          ((GaussianProposalFunction.generate draw2
            (GaussianProposalFunction.generate draw1 s p1).1 p2).1).result = draw2)
  ∧ (∀ (s : MVGPState) (params buf : List ℚ),
        VecRef.deref (MultiVariateGaussianProposal.generate s params).2 buf
          = List.zipWith (fun a b => a + b) (s.draws s.genIndex) params)
  ∧ (∀ (func invfunc : List (Option (ℚ → ℚ))) (indomain : List (Option (ℚ → Bool)))
        (draws : List ℚ → ℕ → List ℚ) (fuel : ℕ) (s : GPState) (params : List ℚ)
        (pr : GPState × VecRef),
        GaussianTransformProposalFunction.generateRef func invfunc indomain draws fuel s params
          = some pr → pr.2 = VecRef.resultBuf) := by
  refine ⟨fun draw s params => ⟨rfl, rfl, rfl⟩, fun d1 d2 s p1 p2 => rfl,
    fun s params buf => rfl, ?_⟩
  intro func invfunc indomain draws fuel s params pr h
  unfold GaussianTransformProposalFunction.generateRef at h
  cases hg : GaussianTransformProposalFunction.generate func invfunc indomain draws params fuel with
  | none => rw [hg] at h; simp at h
  | some v =>
    rw [hg] at h
    simp only [Option.map_some'] at h
    cases h
    rfl

/-- C9 witness: the transformed proposal conjunct of `generate_aliasing`
instantiated at a concrete successful call: the returned vector is the shared
`_result` buffer. -/
theorem generate_aliasing_witness :
    ((⟨⟨[1], [5]⟩, VecRef.resultBuf⟩ : GPState × VecRef)).2 = VecRef.resultBuf :=
  generate_aliasing.2.2.2 [none] [none] [none] (fun _ _ => [5]) 1 ⟨[1], [0]⟩ [0]
    ⟨⟨[1], [5]⟩, VecRef.resultBuf⟩ rfl
